import Mathlib

/-!
Verification of the `roomserver_event_json` storage component
(`roomserver/storage/sqlite3/event_json_table.go`).

The component is a single SQLite table
  `roomserver_event_json (event_nid INTEGER NOT NULL PRIMARY KEY, event_json TEXT NOT NULL)`
with two operations:

* `insertEventJSON` — executes
  `INSERT INTO roomserver_event_json (event_nid, event_json) VALUES ($1, $2)
     ON CONFLICT DO NOTHING`;
* `bulkSelectEventJSON` — executes
  `SELECT event_nid, event_json FROM roomserver_event_json
     WHERE event_nid IN ($1) ORDER BY event_nid ASC`
  (with the placeholder expanded to one `$n` per requested NID), then reads the
  cursor row by row into a slice preallocated with length `len(eventNIDs)`.

We embed the table as a list of rows in insertion order.  The PRIMARY KEY
constraint of the schema is the `Store.wf` invariant (no two rows share an
`event_nid`).  The SQL statements are embedded by their semantics on that
table; the Go row-reading loop of `bulkSelectEventJSON` is embedded literally,
including its error propagation, its indexed writes into the preallocated
result slice, and the fact that it never consults `rows.Err()` after
`rows.Next()` returns false — so a mid-iteration driver failure (connection
loss or context cancellation) makes it return the delivered prefix of the
result set with a nil error.
-/

namespace EventJSONTable

/-- `types.EventNID` — a 64-bit numeric event identifier (opaque here). -/
abbrev EventNID := Int

/-- The stored payload: the `event_json` column / the Go `[]byte`, opaque bytes. -/
abbrev EventJSON := List Nat

/-- `eventJSONPair` from the source: one row `(EventNID, EventJSON)` of the table. -/
abbrev eventJSONPair := EventNID × EventJSON

/-- The `roomserver_event_json` table, rows kept in insertion order. -/
abbrev Store := List eventJSONPair

/-- The `event_nid` column of the table. -/
def keys (store : Store) : List EventNID := store.map Prod.fst

/-- `eventJSONSchema`'s `event_nid INTEGER NOT NULL PRIMARY KEY`:
no two rows of the table share an `event_nid`. -/
def Store.wf (store : Store) : Prop := (keys store).Nodup

/-- Errors surfaced by the persistence layer (`database/sql`).
`storage` stands for a driver/IO failure of the query or exec call,
`corruption` for a `rows.Scan` decode failure on one row, and
`cancelled` for the caller's context being cancelled or timing out
(`context.Canceled` / `context.DeadlineExceeded`). -/
inductive DBError
  | storage (code : Nat)
  | corruption (code : Nat)
  | cancelled
deriving DecidableEq, Repr

/-- Semantics of `insertEventJSONSQL` on the table: a new row is appended;
on a duplicate `event_nid` the `ON CONFLICT DO NOTHING` clause turns the
primary-key conflict into a no-op (the stored row is left untouched). -/
def insertEventJSON (store : Store) (eventNID : EventNID) (eventJSON : EventJSON) : Store :=
  if eventNID ∈ keys store then store
  else store ++ [(eventNID, eventJSON)]

/-- `insertEventJSON` as executed through `ExecContext`: the only possible
failure is a fault of the underlying persistence layer (`driverFault`);
absent such a fault the statement always reports success — in particular a
duplicate key is success, not an error, because of `ON CONFLICT DO NOTHING`. -/
def insertEventJSONRun (driverFault : Option DBError) (store : Store)
    (eventNID : EventNID) (eventJSON : EventJSON) : Except DBError Store :=
  match driverFault with
  | some e => .error e
  | none => .ok (insertEventJSON store eventNID eventJSON)

/-- The comparison used by `ORDER BY event_nid ASC`. -/
def nidLE (a b : eventJSONPair) : Prop := a.1 ≤ b.1

instance : DecidableRel nidLE := fun a b => Int.decLe a.1 b.1

instance : IsTotal eventJSONPair nidLE := ⟨fun a b => Int.le_total a.1 b.1⟩

instance : IsTrans eventJSONPair nidLE := ⟨fun _ _ _ => Int.le_trans⟩

/-- Semantics of `bulkSelectEventJSONSQL`: the rows whose `event_nid` is in the
requested list, ordered ascending by `event_nid`.  (SQLite's `IN ()` on an
empty list is false, so an empty request selects no rows.) -/
def bulkSelectRows (store : Store) (eventNIDs : List EventNID) : List eventJSONPair :=
  List.insertionSort nidLE (store.filter (fun p => decide (p.1 ∈ eventNIDs)))

/-- How the cursor iteration of `database/sql` ends: `rows.Next()` returns
false either because the result set is exhausted, or because the driver
failed mid-iteration (connection loss, or the caller's context being
cancelled); in the latter case the failure is pending in `rows.Err()` and
the rows delivered so far are only a prefix of the query's result set. -/
inductive CursorEnd
  | exhausted
  | iterationError (e : DBError)
deriving DecidableEq, Repr

/-- The cursor `txn.QueryContext` hands back: the `rows.Scan` outcome of each
row it delivers before iteration stops, and how the iteration stops.  With
`ending = iterationError e`, `entries` is the (possibly strict) prefix of the
result set delivered before the failure and `e` is pending in `rows.Err()`. -/
structure Cursor where
  entries : List (Except DBError eventJSONPair)
  ending : CursorEnd
deriving Repr

/-- The `rows.Next()` / `rows.Scan` loop of `bulkSelectEventJSON`: a `Scan`
failure does `return nil, err`; when `rows.Next()` returns false the code does
`return results[:i], nil` without consulting `rows.Err()` — the `ending`
status is ignored, so on a mid-iteration driver failure the delivered prefix
is returned with a nil error. -/
def scanRows (ending : CursorEnd) :
    List (Except DBError eventJSONPair) → Except DBError (List eventJSONPair)
  | [] => .ok []
  | .error e :: _ => .error e
  | .ok row :: rest =>
    match scanRows ending rest with
    | .error e => .error e
    | .ok tail => .ok (row :: tail)

/-- `bulkSelectEventJSON` with the driver's possible faults explicit:
`queryOutcome` is what `txn.QueryContext` returns — either an error
(`return nil, err`) or a cursor, with each delivered row's `Scan` outcome
and the way the iteration terminates. -/
def bulkSelectEventJSONRun (queryOutcome : Except DBError Cursor) :
    Except DBError (List eventJSONPair) :=
  match queryOutcome with
  | .error e => .error e
  | .ok cursor => scanRows cursor.ending cursor.entries

/-- Fault-free execution of `bulkSelectEventJSON`: the driver delivers exactly
the rows selected by `bulkSelectEventJSONSQL`, every `Scan` succeeds, and the
iteration ends by exhausting the result set. -/
def bulkSelectEventJSON (store : Store) (eventNIDs : List EventNID) :
    Except DBError (List eventJSONPair) :=
  bulkSelectEventJSONRun (.ok ⟨(bulkSelectRows store eventNIDs).map .ok, .exhausted⟩)

/-- The Go loop body writing scanned rows into the slice preallocated with
`make([]eventJSONPair, len(eventNIDs))`: `results[i]` is written for
`i = 0, 1, ...`; a write with `i ≥ len(results)` would be an out-of-bounds
slice access (a Go runtime panic), modelled as `none`. -/
def writeRowsLoop (rows : List eventJSONPair) (results : Array eventJSONPair)
    (i : Nat) : Option (Array eventJSONPair × Nat) :=
  match rows with
  | [] => some (results, i)
  | row :: rest =>
    if h : i < results.size then writeRowsLoop rest (results.set ⟨i, h⟩ row) (i + 1)
    else none

/-- The operations the component exposes on the table. -/
inductive StoreOp
  | insertOp (eventNID : EventNID) (eventJSON : EventJSON)
  | bulkFetchOp (eventNIDs : List EventNID)

/-- Effect of each exposed operation on the table state:
`insertEventJSONSQL` inserts (or no-ops on conflict); `bulkSelectEventJSONSQL`
is a `SELECT` and leaves the table unchanged. -/
def StoreOp.apply : StoreOp → Store → Store
  | .insertOp eventNID eventJSON, s => insertEventJSON s eventNID eventJSON
  | .bulkFetchOp _, s => s

/-- Table state after a sequence of exposed operations. -/
def applyOps (ops : List StoreOp) (s : Store) : Store :=
  ops.foldl (fun s op => op.apply s) s

/-- Full execution of `bulkSelectEventJSON` threading the table state through:
the final table is returned alongside the call's outcome (the `SELECT` and the
early `return nil, err` paths perform no writes). -/
def bulkSelectEventJSONExec (store : Store) (queryOutcome : Except DBError Cursor) :
    Store × Except DBError (List eventJSONPair) :=
  match queryOutcome with
  | .error e => (store, .error e)
  | .ok cursor => (store, scanRows cursor.ending cursor.entries)

/-! ### Basic lemmas about the embedding -/

theorem keys_append (s t : Store) : keys (s ++ t) = keys s ++ keys t :=
  List.map_append _ s t

theorem insertEventJSON_of_mem {store : Store} {eventNID : EventNID}
    (h : eventNID ∈ keys store) (eventJSON : EventJSON) :
    insertEventJSON store eventNID eventJSON = store := by
  simp [insertEventJSON, h]

theorem insertEventJSON_of_not_mem {store : Store} {eventNID : EventNID}
    (h : eventNID ∉ keys store) (eventJSON : EventJSON) :
    insertEventJSON store eventNID eventJSON = store ++ [(eventNID, eventJSON)] := by
  simp [insertEventJSON, h]

theorem mem_keys_insertEventJSON (store : Store) (eventNID : EventNID)
    (eventJSON : EventJSON) :
    eventNID ∈ keys (insertEventJSON store eventNID eventJSON) := by
  by_cases h : eventNID ∈ keys store
  · rw [insertEventJSON_of_mem h]; exact h
  · rw [insertEventJSON_of_not_mem h, keys_append]
    simp [keys]

theorem mem_insertEventJSON_of_mem {store : Store} {row : eventJSONPair}
    (h : row ∈ store) (eventNID : EventNID) (eventJSON : EventJSON) :
    row ∈ insertEventJSON store eventNID eventJSON := by
  unfold insertEventJSON
  split
  · exact h
  · exact List.mem_append_left _ h

theorem wf_insertEventJSON {store : Store} (h : store.wf)
    (eventNID : EventNID) (eventJSON : EventJSON) :
    (insertEventJSON store eventNID eventJSON).wf := by
  unfold insertEventJSON
  split
  · exact h
  · rename_i hnot
    unfold Store.wf at h ⊢
    rw [keys_append]
    refine List.Nodup.append h (List.nodup_singleton _) ?_
    intro a ha hb
    simp only [keys, List.map_cons, List.map_nil, List.mem_singleton] at hb
    exact hnot (hb ▸ ha)

theorem mem_applyOp (op : StoreOp) {s : Store} {row : eventJSONPair}
    (h : row ∈ s) : row ∈ op.apply s := by
  cases op with
  | insertOp eventNID eventJSON => exact mem_insertEventJSON_of_mem h eventNID eventJSON
  | bulkFetchOp eventNIDs => exact h

theorem wf_applyOp (op : StoreOp) {s : Store} (h : s.wf) : (op.apply s).wf := by
  cases op with
  | insertOp eventNID eventJSON => exact wf_insertEventJSON h eventNID eventJSON
  | bulkFetchOp eventNIDs => exact h

theorem mem_applyOps (ops : List StoreOp) {s : Store} {row : eventJSONPair}
    (h : row ∈ s) : row ∈ applyOps ops s := by
  induction ops generalizing s with
  | nil => exact h
  | cons op ops ih => exact ih (mem_applyOp op h)

theorem wf_applyOps (ops : List StoreOp) {s : Store} (h : s.wf) :
    (applyOps ops s).wf := by
  induction ops generalizing s with
  | nil => exact h
  | cons op ops ih => exact ih (wf_applyOp op h)

/-- In a table satisfying the primary-key invariant, an `event_nid` determines
its payload. -/
theorem wf_payload_unique {s : Store} (h : s.wf) {id : EventNID}
    {p q : EventJSON} (hp : (id, p) ∈ s) (hq : (id, q) ∈ s) : p = q := by
  have := List.inj_on_of_nodup_map h hp hq rfl
  exact congrArg Prod.snd this

theorem scanRows_map_ok (ending : CursorEnd) (rows : List eventJSONPair) :
    scanRows ending (rows.map .ok) = .ok rows := by
  induction rows with
  | nil => rfl
  | cons row rest ih => simp [scanRows, ih]

theorem bulkSelectEventJSON_eq_ok (store : Store) (eventNIDs : List EventNID) :
    bulkSelectEventJSON store eventNIDs = .ok (bulkSelectRows store eventNIDs) := by
  unfold bulkSelectEventJSON bulkSelectEventJSONRun
  exact scanRows_map_ok _ _

theorem bulkSelectRows_perm (store : Store) (eventNIDs : List EventNID) :
    (bulkSelectRows store eventNIDs).Perm
      (store.filter (fun p => decide (p.1 ∈ eventNIDs))) :=
  List.perm_insertionSort nidLE _

theorem mem_bulkSelectRows {store : Store} {eventNIDs : List EventNID}
    {row : eventJSONPair} :
    row ∈ bulkSelectRows store eventNIDs ↔ row ∈ store ∧ row.1 ∈ eventNIDs := by
  rw [(bulkSelectRows_perm store eventNIDs).mem_iff, List.mem_filter]
  simp

theorem bulkSelectRows_sorted (store : Store) (eventNIDs : List EventNID) :
    ((bulkSelectRows store eventNIDs).map Prod.fst).Sorted (· ≤ ·) := by
  have h := List.sorted_insertionSort nidLE
    (store.filter (fun p => decide (p.1 ∈ eventNIDs)))
  rw [List.Sorted, List.pairwise_map]
  exact h

theorem bulkSelectRows_keys_nodup (store : Store) (eventNIDs : List EventNID)
    (hwf : store.wf) :
    ((bulkSelectRows store eventNIDs).map Prod.fst).Nodup := by
  have hperm := (bulkSelectRows_perm store eventNIDs).map Prod.fst
  rw [hperm.nodup_iff]
  exact ((List.filter_sublist store).map Prod.fst).nodup hwf

theorem bulkSelectRows_strict_sorted (store : Store) (eventNIDs : List EventNID)
    (hwf : store.wf) :
    ((bulkSelectRows store eventNIDs).map Prod.fst).Pairwise (· < ·) :=
  (bulkSelectRows_sorted store eventNIDs).lt_of_le
    (bulkSelectRows_keys_nodup store eventNIDs hwf)

theorem bulkSelectRows_length_le_dedup (store : Store) (eventNIDs : List EventNID)
    (hwf : store.wf) :
    (bulkSelectRows store eventNIDs).length ≤ eventNIDs.dedup.length := by
  rw [(bulkSelectRows_perm store eventNIDs).length_eq]
  have hnodup : ((store.filter (fun p => decide (p.1 ∈ eventNIDs))).map Prod.fst).Nodup :=
    ((List.filter_sublist store).map Prod.fst).nodup hwf
  have hsub : (store.filter (fun p => decide (p.1 ∈ eventNIDs))).map Prod.fst
      ⊆ eventNIDs.dedup := by
    intro a ha
    obtain ⟨p, hp, rfl⟩ := List.mem_map.1 ha
    obtain ⟨-, hmem⟩ := List.mem_filter.1 hp
    exact List.mem_dedup.2 (of_decide_eq_true hmem)
  have := (List.subperm_of_subset hnodup hsub).length_le
  rwa [List.length_map] at this

theorem bulkSelectRows_length_le (store : Store) (eventNIDs : List EventNID)
    (hwf : store.wf) :
    (bulkSelectRows store eventNIDs).length ≤ eventNIDs.length :=
  le_trans (bulkSelectRows_length_le_dedup store eventNIDs hwf)
    (List.dedup_sublist eventNIDs).length_le

theorem writeRowsLoop_isSome (rows : List eventJSONPair) :
    ∀ (results : Array eventJSONPair) (i : Nat),
      i + rows.length ≤ results.size → (writeRowsLoop rows results i).isSome := by
  induction rows with
  | nil => intro results i _; rfl
  | cons row rest ih =>
    intro results i hle
    have hi : i < results.size := by
      simp only [List.length_cons] at hle
      omega
    rw [writeRowsLoop, dif_pos hi]
    apply ih
    rw [Array.size_set]
    simp only [List.length_cons] at hle
    omega

instance : DecidablePred Store.wf :=
  fun s => decidable_of_iff ((keys s).Nodup) Iff.rfl

/-! ### The claims -/

/-- C1: for every store state (satisfying the schema's primary-key constraint)
and every requested list `eventNIDs` (any order, duplicates allowed),
`bulkSelectEventJSON` succeeds and returns exactly one `(id, payload)` entry
for each distinct requested identifier that has a stored blob, in strictly
ascending identifier order. -/
theorem bulkSelect_sorted_complete (store : Store) (eventNIDs : List EventNID)
    (hwf : store.wf) :
    ∃ res, bulkSelectEventJSON store eventNIDs = .ok res ∧
      (res.map Prod.fst).Pairwise (· < ·) ∧
      ∀ id p, (id, p) ∈ res ↔ ((id, p) ∈ store ∧ id ∈ eventNIDs) := by
  refine ⟨bulkSelectRows store eventNIDs, bulkSelectEventJSON_eq_ok store eventNIDs,
    bulkSelectRows_strict_sorted store eventNIDs hwf, ?_⟩
  intro id p
  exact mem_bulkSelectRows

theorem bulkSelect_sorted_complete_witness :
    ∃ res, bulkSelectEventJSON [(3, [30]), (1, [10]), (2, [20])] [3, 1, 2, 99] = .ok res ∧
      (res.map Prod.fst).Pairwise (· < ·) ∧
      ∀ id p, (id, p) ∈ res ↔
        ((id, p) ∈ ([(3, [30]), (1, [10]), (2, [20])] : Store) ∧
          id ∈ ([3, 1, 2, 99] : List EventNID)) :=
  bulkSelect_sorted_complete [(3, [30]), (1, [10]), (2, [20])] [3, 1, 2, 99] (by decide)

/-- C2: inserting `(id, payloadA)` into a store not yet holding `id` and then
inserting `(id, payloadB)` succeeds on both calls (the second is a no-op, not
an error) and leaves the stored payload for `id` equal to `payloadA`. -/
theorem insertEventJSON_idempotent (store : Store) (id : EventNID)
    (pA pB : EventJSON) (hne : pA ≠ pB) (habs : id ∉ keys store) :
    insertEventJSONRun none store id pA = .ok (insertEventJSON store id pA) ∧
    insertEventJSONRun none (insertEventJSON store id pA) id pB
      = .ok (insertEventJSON store id pA) ∧
    (id, pA) ∈ insertEventJSON store id pA ∧
    ∀ q, (id, q) ∈ insertEventJSON store id pA → q = pA := by
  have hnoop : insertEventJSON (insertEventJSON store id pA) id pB
      = insertEventJSON store id pA :=
    insertEventJSON_of_mem (mem_keys_insertEventJSON store id pA) pB
  have hins : insertEventJSON store id pA = store ++ [(id, pA)] :=
    insertEventJSON_of_not_mem habs pA
  refine ⟨rfl, ?_, ?_, ?_⟩
  · show Except.ok (insertEventJSON (insertEventJSON store id pA) id pB) = _
    rw [hnoop]
  · rw [hins]
    exact List.mem_append_right _ (List.mem_singleton_self _)
  · intro q hq
    rw [hins] at hq
    rcases List.mem_append.1 hq with hq | hq
    · exact absurd (List.mem_map_of_mem Prod.fst hq) habs
    · exact congrArg Prod.snd (List.mem_singleton.1 hq)

theorem insertEventJSON_idempotent_witness :
    insertEventJSONRun none [] 1 [0] = .ok (insertEventJSON [] 1 [0]) ∧
    insertEventJSONRun none (insertEventJSON [] 1 [0]) 1 [7]
      = .ok (insertEventJSON [] 1 [0]) ∧
    (1, [0]) ∈ insertEventJSON [] 1 [0] ∧
    ∀ q, (1, q) ∈ insertEventJSON [] 1 [0] → q = [0] :=
  insertEventJSON_idempotent [] 1 [0] [7] (by decide) (by decide)

/-- C3: inserting `(id, payload)` into a store not containing `id` and then
bulk-fetching `[id]` in the same transaction returns exactly `[(id, payload)]`. -/
theorem insert_then_bulkSelect (store : Store) (id : EventNID) (p : EventJSON)
    (habs : id ∉ keys store) :
    bulkSelectEventJSON (insertEventJSON store id p) [id] = .ok [(id, p)] := by
  rw [bulkSelectEventJSON_eq_ok, insertEventJSON_of_not_mem habs p]
  have hfil : store.filter (fun q => decide (q.1 ∈ [id])) = [] := by
    rw [List.filter_eq_nil_iff]
    intro q hq
    simp only [List.mem_singleton, decide_eq_true_eq]
    intro hqid
    exact habs (hqid ▸ List.mem_map_of_mem Prod.fst hq)
  unfold bulkSelectRows
  rw [List.filter_append, hfil]
  simp

theorem insert_then_bulkSelect_witness :
    bulkSelectEventJSON (insertEventJSON [(5, [50])] 7 [70]) [7] = .ok [(7, [70])] :=
  insert_then_bulkSelect [(5, [50])] 7 [70] (by decide)

/-- C4: a bulk fetch whose input contains identifiers with no stored blob
still succeeds; the missing identifiers are silently omitted (no placeholder
entry), and the result length is at most the number of distinct identifiers
requested. -/
theorem bulkSelect_missing_omitted (store : Store) (eventNIDs : List EventNID)
    (hwf : store.wf) :
    ∃ res, bulkSelectEventJSON store eventNIDs = .ok res ∧
      res.length ≤ eventNIDs.dedup.length ∧
      ∀ id, id ∉ keys store → ∀ p, (id, p) ∉ res := by
  refine ⟨bulkSelectRows store eventNIDs, bulkSelectEventJSON_eq_ok store eventNIDs,
    bulkSelectRows_length_le_dedup store eventNIDs hwf, ?_⟩
  intro id hid p hmem
  exact hid (List.mem_map_of_mem Prod.fst (mem_bulkSelectRows.1 hmem).1)

theorem bulkSelect_missing_omitted_witness :
    ∃ res, bulkSelectEventJSON [(1, [10])] [1, 2] = .ok res ∧
      res.length ≤ ([1, 2] : List EventNID).dedup.length ∧
      ∀ id, id ∉ keys [(1, [10])] → ∀ p, (id, p) ∉ res :=
  bulkSelect_missing_omitted [(1, [10])] [1, 2] (by decide)

/-- C5: a bulk fetch with an empty identifier list returns an empty result and
no error, for every store state. -/
theorem bulkSelect_empty (store : Store) :
    bulkSelectEventJSON store [] = .ok [] := by
  rw [bulkSelectEventJSON_eq_ok]
  unfold bulkSelectRows
  simp

/-- C6: the store is append-only: a `(id, payload)` row present in a table that
satisfies the primary-key invariant is still present, with the same payload and
still unique for `id`, after any sequence of exposed operations. -/
theorem store_append_only (ops : List StoreOp) (store : Store) (id : EventNID)
    (p : EventJSON) (hwf : store.wf) (hmem : (id, p) ∈ store) :
    (applyOps ops store).wf ∧ (id, p) ∈ applyOps ops store ∧
    ∀ q, (id, q) ∈ applyOps ops store → q = p := by
  have hwf' := wf_applyOps ops hwf
  have hmem' := mem_applyOps ops hmem
  exact ⟨hwf', hmem', fun q hq => wf_payload_unique hwf' hq hmem'⟩

theorem store_append_only_witness :
    (applyOps [StoreOp.insertOp 2 [5], StoreOp.insertOp 1 [9],
      StoreOp.bulkFetchOp [1, 2]] [(1, [10])]).wf ∧
    (1, [10]) ∈ applyOps [StoreOp.insertOp 2 [5], StoreOp.insertOp 1 [9],
      StoreOp.bulkFetchOp [1, 2]] [(1, [10])] ∧
    ∀ q, (1, q) ∈ applyOps [StoreOp.insertOp 2 [5], StoreOp.insertOp 1 [9],
      StoreOp.bulkFetchOp [1, 2]] [(1, [10])] → q = [10] :=
  store_append_only [StoreOp.insertOp 2 [5], StoreOp.insertOp 1 [9],
    StoreOp.bulkFetchOp [1, 2]] [(1, [10])] 1 [10] (by decide) (by decide)

/-- The error paths the code does handle: a `rows.Scan` decode failure anywhere
in the cursor fails the whole call with that very error, and a failure of the
query call itself is surfaced unmodified. -/
theorem scan_failure_fails_call (goodRows : List eventJSONPair) (e : DBError)
    (post : List (Except DBError eventJSONPair)) (ending : CursorEnd) :
    bulkSelectEventJSONRun (.ok ⟨goodRows.map .ok ++ .error e :: post, ending⟩)
      = .error e ∧
    ∀ e2, bulkSelectEventJSONRun (.error e2) = .error e2 := by
  constructor
  · show scanRows _ _ = _
    induction goodRows with
    | nil => rfl
    | cons row rest ih => simp [scanRows, ih]
  · intro e2; rfl

/-- C7: the claim fails on the code through the iteration-error path.  Here the
query succeeds and the cursor delivers the row `(1, [10])`, then the driver
fails mid-iteration with the error pending in `rows.Err()` — which
`bulkSelectEventJSON` never checks.  The code executes `return results[:i], nil`
and hands the caller the truncated list with a nil error, instead of failing the
whole call: the failure of the underlying persistence call is swallowed. -/
theorem bulkSelect_truncated_on_iteration_error :
    bulkSelectEventJSONRun
        (.ok ⟨[.ok (1, [10])], .iterationError (.storage 0)⟩)
      = .ok [(1, [10])] := rfl

/-- C8: the claim fails on the code for the bulk-fetch path.  When cancellation
fires mid-iteration, `rows.Next()` returns false with `context.Canceled`
pending in `rows.Err()`; since `bulkSelectEventJSON` never checks `rows.Err()`,
the call returns the partial list with a nil error — not a cancellation-kind
error and not an error at all.  (Cancellation during the insert's
`ExecContext`, by contrast, is propagated unmodified, as the second conjunct
shows.) -/
theorem bulkSelect_cancellation_swallowed :
    bulkSelectEventJSONRun
        (.ok ⟨[.ok (2, [20])], .iterationError .cancelled⟩)
      = .ok [(2, [20])] ∧
    insertEventJSONRun (some .cancelled) [] 1 [0] = .error .cancelled :=
  ⟨rfl, rfl⟩

/-- C9: the write `results[i]` in the row-reading loop is always in bounds:
with the primary-key invariant the query returns at most `len(eventNIDs)`
rows, so running the loop on a slice preallocated with that length never
indexes out of bounds. -/
theorem bulkSelect_write_inBounds (store : Store) (eventNIDs : List EventNID)
    (hwf : store.wf) (results : Array eventJSONPair)
    (hsz : results.size = eventNIDs.length) :
    (bulkSelectRows store eventNIDs).length ≤ eventNIDs.length ∧
    (writeRowsLoop (bulkSelectRows store eventNIDs) results 0).isSome := by
  have hlen := bulkSelectRows_length_le store eventNIDs hwf
  exact ⟨hlen, writeRowsLoop_isSome _ results 0 (by omega)⟩

theorem bulkSelect_write_inBounds_witness :
    (bulkSelectRows [(1, [10]), (2, [20])] [2, 1]).length ≤
      ([2, 1] : List EventNID).length ∧
    (writeRowsLoop (bulkSelectRows [(1, [10]), (2, [20])] [2, 1])
      (Array.mkArray 2 (0, [])) 0).isSome :=
  bulkSelect_write_inBounds [(1, [10]), (2, [20])] [2, 1] (by decide)
    (Array.mkArray 2 (0, [])) (by decide)

/-- C10: a bulk fetch is read-only: whatever the driver outcome (query error,
scan failure, mid-iteration failure, or success), the table contents after the
call equal the table contents before it. -/
theorem bulkSelect_read_only (store : Store) (queryOutcome : Except DBError Cursor) :
    (bulkSelectEventJSONExec store queryOutcome).1 = store := by
  cases queryOutcome with
  | error e => rfl
  | ok cursor => rfl

end EventJSONTable
